import Mathlib

/-!
Verification development for `UploadTimer` (`src/timer.py`).

The repository is a single class `TimeIt` that records (timestamp,
files-remaining) samples, persists them to two flat text files, and fits a
polynomial trend to estimate the completion time of an upload.

Shallow embedding conventions used here:
* Python `datetime` objects are embedded two ways, matching the two ways the
  source uses them: as a field record `DT` (year/month/day/h/m/s/microsecond),
  which is what the serialization code `str(datetime)` / `strptime` operates
  on, and as an `Instant` (whole days since 1970-01-01 plus rational seconds
  of day), which is what the arithmetic `(x - datetime(1970,1,1))
  .total_seconds()` and `datetime.fromtimestamp(_, pytz.utc)` operate on.
* Python floats are embedded as `ℚ`; `numpy` float arrays as `List ℚ`.
* The two data files are an explicit `FS` record; a file's content is
  `none` when the file does not exist (`os.path.exists` is false).
* Exceptions are `Option`/`Except`: `none`/`.error` models a raised
  exception (`ValueError`, `TypeError`, `SystemExit`).
* Library calls whose output the repository merely consumes
  (`np.polyfit`, `np.roots`) enter as parameters; library calls whose
  behaviour the repository's correctness depends on (`np.linspace`,
  `np.poly1d`, `np.nanargmin`, `np.loadtxt`, `np.savetxt`, `str(datetime)`,
  `datetime.strptime`) are modelled explicitly.
-/

namespace UploadTimer

/-! ## Decimal digit strings

`str(datetime)` zero-pads every numeric field (`%04d`/`%02d`/`%06d`).
`digitsLE w n` is the list of the `w` low decimal digits of `n`, least
significant first; `padChars w n` is the zero-padded `w`-character decimal
rendering of `n` (exact for `n < 10 ^ w`, which every `datetime` field
satisfies). -/

def digitsLE : ℕ → ℕ → List ℕ
  | 0, _ => []
  | w + 1, n => n % 10 :: digitsLE w (n / 10)

/-- Big-endian value of a digit list, the way a left-to-right reader (and
`strptime`) accumulates it. -/
def valBE (ds : List ℕ) : ℕ := ds.foldl (fun a d => 10 * a + d) 0

def digitChar (d : ℕ) : Char := Char.ofNat (48 + d)

def charVal (c : Char) : ℕ := c.toNat - 48

def isDigitChar (c : Char) : Bool := 48 ≤ c.toNat && c.toNat ≤ 57

/-- Zero-padded `w`-character decimal rendering of `n` (Python `"%0wd" % n`
for `n < 10 ^ w`). -/
def padChars (w n : ℕ) : List Char := (digitsLE w n).reverse.map digitChar

/-! ## The naive datetime field record and `str(datetime)` -/

/-- Fields of a (naive) Python `datetime`, as `str`/`strptime` see them. -/
structure DT where
  year : ℕ
  month : ℕ
  day : ℕ
  hour : ℕ
  minute : ℕ
  second : ℕ
  usec : ℕ
deriving DecidableEq

/-- Days in a month of the proleptic Gregorian calendar (what the `datetime`
constructor enforces). -/
def daysInMonth (y m : ℕ) : ℕ :=
  if m = 2 then (if y % 4 = 0 && (y % 100 ≠ 0 || y % 400 = 0) then 29 else 28)
  else if m = 4 || m = 6 || m = 9 || m = 11 then 30
  else 31

/-- Field ranges every constructible Python `datetime` satisfies. -/
def validDT (t : DT) : Prop :=
  1 ≤ t.year ∧ t.year ≤ 9999 ∧ 1 ≤ t.month ∧ t.month ≤ 12 ∧
  1 ≤ t.day ∧ t.day ≤ daysInMonth t.year t.month ∧
  t.hour ≤ 23 ∧ t.minute ≤ 59 ∧ t.second ≤ 59 ∧ t.usec ≤ 999999

instance (t : DT) : Decidable (validDT t) := by
  unfold validDT; infer_instance

/-- Python `str(datetime)` (what `np.savetxt(..., fmt=s-format)` writes per
line, source line 121): `YYYY-MM-DD HH:MM:SS.ffffff`, except that the
fractional part is omitted entirely when `microsecond == 0`. -/
def py_str_datetime (t : DT) : List Char :=
  padChars 4 t.year ++ (Char.ofNat 45 ::
    (padChars 2 t.month ++ (Char.ofNat 45 ::
      (padChars 2 t.day ++ (Char.ofNat 32 ::
        (padChars 2 t.hour ++ (Char.ofNat 58 ::
          (padChars 2 t.minute ++ (Char.ofNat 58 ::
            (padChars 2 t.second ++
              (if t.usec = 0 then []
               else Char.ofNat 46 :: padChars 6 t.usec)))))))))))

/-- Read exactly `w` decimal digits (the width the serializer always emits)
and return their value and the rest of the input; fail otherwise. One
numeric field of `datetime.strptime` (source line 88). -/
def parseNat (w : ℕ) (cs : List Char) : Option (ℕ × List Char) :=
  let pre := cs.take w
  if pre.length = w && pre.all isDigitChar then
    some (valBE (pre.map charVal), cs.drop w)
  else none

/-- Require a literal separator character. -/
def expect (c : Char) : List Char → Option (List Char)
  | [] => none
  | x :: rest => if x = c then some rest else none

/-- Models `datetime.strptime(x, Y-m-d H:M:S.f format)` (source line 88) on the
zero-padded strings the serializer emits: six fixed-width numeric fields
with literal separators, then a mandatory dot and 1–6 fraction digits
(right-padded to microseconds), consuming the whole input; the resulting
fields must form a constructible `datetime`.  `none` models the raised
`ValueError`. -/
def strptime_exact (cs : List Char) : Option DT := do
  let (y, r1) ← parseNat 4 cs
  let r2 ← expect (Char.ofNat 45) r1
  let (mo, r3) ← parseNat 2 r2
  let r4 ← expect (Char.ofNat 45) r3
  let (d, r5) ← parseNat 2 r4
  let r6 ← expect (Char.ofNat 32) r5
  let (h, r7) ← parseNat 2 r6
  let r8 ← expect (Char.ofNat 58) r7
  let (mi, r9) ← parseNat 2 r8
  let r10 ← expect (Char.ofNat 58) r9
  let (s, r11) ← parseNat 2 r10
  let r12 ← expect (Char.ofNat 46) r11
  let ds := r12.takeWhile isDigitChar
  if 1 ≤ ds.length ∧ ds.length ≤ 6 ∧ r12.dropWhile isDigitChar = [] then
    let t : DT := ⟨y, mo, d, h, mi, s, valBE (ds.map charVal) * 10 ^ (6 - ds.length)⟩
    if validDT t then some t else none
  else none

/-! ## The two persisted resources and the sample store -/

/-- The two data files.  `uploadsFile` holds the parsed numeric content of
`data/uploads.txt` (the counts round-trip through the 18-digit exponential
format `np.savetxt` uses, which is value-exact for the integral counts this
program stores, so the file is modelled at value level); `timestampsFile`
holds the text lines of `data/timestamps.txt`.  `none` means the file is
absent. -/
structure FS where
  uploadsFile : Option (List ℚ)
  timestampsFile : Option (List (List Char))
deriving DecidableEq

/-- Models how `np.loadtxt` squeezes its result: a file with exactly one row comes back
as a 0-dimensional array, and iterating it (`list(...)`, or the list
comprehension in `read_time_data`) raises `TypeError`, modelled as `none`. -/
def np_loadtxt_list {α : Type} (lines : List α) : Option (List α) :=
  if lines.length = 1 then none else some lines

/-- The list comprehension of source line 88: parse every line, propagating
the first `ValueError`. -/
def parse_lines : List (List Char) → Option (List DT)
  | [] => some []
  | l :: rest =>
    match strptime_exact l, parse_lines rest with
    | some t, some ts => some (t :: ts)
    | _, _ => none

/-- Embeds `TimeIt.read_upload_data` (source lines 57-72): if the uploads file
exists and `init == 0`, return `list(np.loadtxt(...))`, else an empty
list. -/
def read_upload_data (fs : FS) (init : ℕ) : Option (List ℚ) :=
  match fs.uploadsFile, init with
  | some lines, 0 => np_loadtxt_list lines
  | _, _ => some []

/-- Embeds `TimeIt.read_time_data` (source lines 74-91): if the timestamps file
exists and `init == 0`, load its lines and `strptime` each of them, else an
empty list. -/
def read_time_data (fs : FS) (init : ℕ) : Option (List DT) :=
  match fs.timestampsFile, init with
  | some lines, 0 => (np_loadtxt_list lines).bind parse_lines
  | _, _ => some []

/-- Whether a write attempt hits an `IOError`.  The outcome of each
`np.savetxt` call is an input of the model. -/
inductive WriteOutcome where
  | ok
  | ioError
deriving DecidableEq

/-- Embeds `TimeIt.write_upload_data` (source lines 93-108): replace the whole
uploads file with the current list; on `IOError`, `raise SystemExit`
(modelled as `.error ()`). -/
def write_upload_data (upload_data : List ℚ) (fs : FS) :
    WriteOutcome → Except Unit FS
  | .ok => .ok { fs with uploadsFile := some upload_data }
  | .ioError => .error ()

/-- Embeds `TimeIt.write_time_data` (source lines 110-125): replace the whole
timestamps file with `str(x)` of each datetime (`fmt` is the s-format); on
`IOError`, `raise SystemExit`. -/
def write_time_data (time_data : List DT) (fs : FS) :
    WriteOutcome → Except Unit FS
  | .ok => .ok { fs with timestampsFile := some (time_data.map py_str_datetime) }
  | .ioError => .error ()

/-- The `TimeIt` object's mutable state (source lines 35–37). -/
structure TimeIt where
  upload_data : List ℚ
  time_data : List DT
  nfiles : ℤ
deriving DecidableEq

/-- Embeds `TimeIt.__init__` (source lines 24-37): `read_upload_data(init=1)` and
`read_time_data(init=1)` — note the hard-coded `init=1`. -/
def TimeIt.init (fs : FS) (nfiles : ℤ) : Option TimeIt := do
  let u ← read_upload_data fs 1
  let t ← read_time_data fs 1
  pure ⟨u, t, nfiles⟩

/-- The current-file value actually used by `add_to_dataset` (source lines
47–50): `if file_number:` is Python truthiness, so an explicit `0` (and
`None`) falls through to `input(...)`, whose reply is the `promptedVal`
parameter of the model. -/
def current_file_of (file_number : Option ℤ) (promptedVal : ℤ) : ℤ :=
  match file_number with
  | some n => if n = 0 then promptedVal else n
  | none => promptedVal

/-- Whether `add_to_dataset` reaches the `input(...)` branch. -/
def prompts_user : Option ℤ → Bool
  | some n => n == 0
  | none => true

/-- Result of one `add_to_dataset` call: normal return (the method returns
`True`) or process termination by the uncaught `SystemExit`; either way the
in-memory object state and the file state at that point are recorded. -/
inductive RecordResult where
  | ok (ret : Bool) (s : TimeIt) (fs : FS)
  | fatal (s : TimeIt) (fs : FS)
deriving DecidableEq

/-- Embeds `TimeIt.add_to_dataset` (source lines 40-55): choose the current file
number (prompting on a falsy argument), append `datetime.now()` (the `now`
parameter) to `time_data` and `nfiles - current_file` to `upload_data`,
then write the uploads file and the timestamps file in that order. -/
def add_to_dataset (s : TimeIt) (fs : FS) (file_number : Option ℤ)
    (promptedVal : ℤ) (now : DT) (o1 o2 : WriteOutcome) : RecordResult :=
  let current_file := current_file_of file_number promptedVal
  let time2 := s.time_data ++ [now]
  let upload2 := s.upload_data ++ [((s.nfiles - current_file : ℤ) : ℚ)]
  match write_upload_data upload2 fs o1 with
  | .error _ => .fatal ⟨upload2, time2, s.nfiles⟩ fs
  | .ok fs1 =>
    match write_time_data time2 fs1 o2 with
    | .error _ => .fatal ⟨upload2, time2, s.nfiles⟩ fs1
    | .ok fs2 => .ok true ⟨upload2, time2, s.nfiles⟩ fs2

/-- Run a sequence of `add_to_dataset` calls (each step: the explicit
`file_number` argument, the value `input(...)` would return, and the
current wall-clock time), with both writes succeeding.  A `SystemExit`
stops the run. -/
def run_records : List (Option ℤ × ℤ × DT) → TimeIt × FS → TimeIt × FS
  | [], st => st
  | (fn, pv, now) :: rest, (s, fs) =>
    match add_to_dataset s fs fn pv now .ok .ok with
    | .ok _ s2 fs2 => run_records rest (s2, fs2)
    | .fatal s2 fs2 => (s2, fs2)

/-! ## The time axis of the estimator

Python subtracts naive datetimes through their proleptic-Gregorian ordinal,
so for the arithmetic in `time_data_to_dec` / `fromtimestamp` a datetime is
exactly a pair (whole days relative to 1970-01-01, seconds of day).  The
calendar rendering of the day number is presentation and is not modelled. -/

/-- A naive datetime as day-and-seconds-of-day relative to 1970-01-01. -/
structure Instant where
  day : ℤ
  sod : ℚ
deriving DecidableEq

/-- A meaningful `Instant` has its seconds-of-day inside one day. -/
def validInstant (t : Instant) : Prop := 0 ≤ t.sod ∧ t.sod < 86400

/-- The instant `1970-01-01T00:00:00`, the epoch the source subtracts (line 135). -/
def epoch1970 : Instant := ⟨0, 0⟩

/-- Embeds `(x - datetime(1970,1,1)).total_seconds()` for one sample:
`timedelta.total_seconds` is `86400 * days + seconds-of-day`. -/
def total_seconds_from_epoch (t : Instant) : ℚ := 86400 * t.day + t.sod

/-- Embeds `TimeIt.time_data_to_dec` (source lines 127-136). -/
def time_data_to_dec (time_data : List Instant) : List ℚ :=
  time_data.map total_seconds_from_epoch

/-- Embeds `datetime.fromtimestamp(s, pytz.utc)` (source lines 163 and 166): the
UTC rendering applies no timezone offset, so the result is the instant `s`
seconds after the epoch, split into whole days and seconds of day. -/
def fromtimestamp_utc (s : ℚ) : Instant :=
  ⟨⌊s / 86400⌋, s - 86400 * ⌊s / 86400⌋⟩

/-- Embeds `.strftime(H:M format)` (source line 169): the hour and minute fields,
read off the seconds-of-day. -/
def strftime_HM (t : Instant) : ℤ × ℤ :=
  (⌊t.sod⌋ / 3600, ⌊t.sod⌋ % 3600 / 60)

/-! ## The estimator pipeline (source lines 159–169) -/

/-- A complex number as `np.roots` returns them (real and imaginary part);
the source never inspects the imaginary part. -/
structure Cq where
  re : ℚ
  im : ℚ
deriving DecidableEq

/-- Embeds `endtime_dec = roots[0]` (source line 162): the first element of
whatever array the root-finder returned; `none` models the `IndexError` on
an empty array. -/
def endtime_dec_sel (roots : List Cq) : Option Cq := roots.head?

/-- Models `np.linspace`: `num` evenly spaced points from `a` to `b`,
both endpoints included. -/
def np_linspace (a b : ℚ) (num : ℕ) : List ℚ :=
  (List.range num).map (fun i : ℕ => a + (i : ℚ) * (b - a) / ((num : ℚ) - 1))

/-- Models `np.poly1d(z)` evaluation: coefficients highest power first, Horner. -/
def poly1d_eval (z : List ℚ) (x : ℚ) : ℚ :=
  z.foldl (fun acc c => acc * x + c) 0

/-- Models `np.abs` on an array. -/
def np_abs (xs : List ℚ) : List ℚ := xs.map (fun x => |x|)

/-- Scanner behind `np_nanargmin`: walk the remaining list, tracking the
index and value of the best element seen so far. -/
def argmin_go : List ℚ → ℕ → ℕ × ℚ → ℕ × ℚ
  | [], _, best => best
  | x :: rest, i, best =>
    if x < best.2 then argmin_go rest (i + 1) (i, x)
    else argmin_go rest (i + 1) best

/-- Models `np.nanargmin`: index of the first minimal element.  In this rational
model no entry is NaN (the evaluated polynomial values are rationals), so
nothing is skipped.  `np.nanargmin` raises on an empty array; the `[]` case
is never reached from `plot_it` (the linspace has 100 points). -/
def np_nanargmin : List ℚ → ℕ
  | [] => 0
  | x :: rest => (argmin_go rest 1 (0, x)).1

/-- Embeds `xp = np.linspace(time_data_dec[0], endtime_dec, 100)` (source line
165).  `headD` stands for the `[0]` subscript; `plot_it` is only reached
with a non-empty dataset. -/
def plot_it_xp (time_data_dec : List ℚ) (endtime_dec : ℚ) : List ℚ :=
  np_linspace (time_data_dec.headD 0) endtime_dec 100

/-- Embeds `newfiles = p(xp)` (source line 167), for fit coefficients `z`. -/
def plot_it_newfiles (z : List ℚ) (time_data_dec : List ℚ) (endtime_dec : ℚ) :
    List ℚ :=
  (plot_it_xp time_data_dec endtime_dec).map (poly1d_eval z)

/-- Embeds `theargmin = np.nanargmin(np.abs(newfiles))` (source line 168). -/
def plot_it_theargmin (z : List ℚ) (time_data_dec : List ℚ) (endtime_dec : ℚ) :
    ℕ :=
  np_nanargmin (np_abs (plot_it_newfiles z time_data_dec endtime_dec))

/-- Embeds `completion_time = newdates[theargmin].strftime(H:M format)` (source
lines 166 and 169): `newdates` is `fromtimestamp` of each `xp` entry, so the
selected date is `fromtimestamp` of the selected `xp` entry. -/
def plot_it_completion (z : List ℚ) (time_data_dec : List ℚ)
    (endtime_dec : ℚ) : ℤ × ℤ :=
  strftime_HM (fromtimestamp_utc
    ((plot_it_xp time_data_dec endtime_dec).getD
      (plot_it_theargmin z time_data_dec endtime_dec) 0))

/-! ## Theorems about the sample store -/

/-- One succeeding `add_to_dataset` step of a run, written out. -/
theorem run_records_cons (fn : Option ℤ) (pv : ℤ) (now : DT)
    (rest : List (Option ℤ × ℤ × DT)) (s : TimeIt) (fs : FS) :
    run_records ((fn, pv, now) :: rest) (s, fs) =
      run_records rest
        (⟨s.upload_data ++ [((s.nfiles - current_file_of fn pv : ℤ) : ℚ)],
          s.time_data ++ [now], s.nfiles⟩,
         ⟨some (s.upload_data ++ [((s.nfiles - current_file_of fn pv : ℤ) : ℚ)]),
          some ((s.time_data ++ [now]).map py_str_datetime)⟩) := rfl

theorem run_records_ok_spec (steps : List (ℤ × ℤ × DT)) (s : TimeIt) (fs : FS) :
    (run_records (steps.map fun p => (some p.1, p.2.1, p.2.2)) (s, fs)).1 =
      ⟨s.upload_data ++
         steps.map (fun p => ((s.nfiles - current_file_of (some p.1) p.2.1 : ℤ) : ℚ)),
       s.time_data ++ steps.map (fun p => p.2.2), s.nfiles⟩ := by
  induction steps generalizing s fs with
  | nil => simp [run_records]
  | cons p rest ih =>
    simp only [List.map_cons, run_records_cons]
    rw [ih]
    simp [List.append_assoc]

/-- Claim C5 (code bug): `TimeIt.__init__` documents that it resumes from
previously recorded measurements, but it calls both readers with `init=1`,
which unconditionally takes the start-from-scratch branch: the constructed
object is empty for every state of the two files, including states where
both files exist and hold samples. -/
theorem c5_init_ignores_persisted_data (fs : FS) (nfiles : ℤ) :
    TimeIt.init fs nfiles = some ⟨[], [], nfiles⟩ := by
  cases fs with
  | mk u t => cases u <;> cases t <;> rfl

/-- Claim C6 (counterexample): with the uploads file absent and the
timestamps file present with two parseable lines, the loaded dataset is not
empty — the timestamp sequence comes back with both entries. -/
theorem c6_counterexample :
    read_upload_data
      ⟨none, some [py_str_datetime ⟨2020, 1, 1, 12, 0, 0, 500000⟩,
                   py_str_datetime ⟨2020, 1, 1, 12, 30, 0, 500000⟩]⟩ 0 = some [] ∧
    read_time_data
      ⟨none, some [py_str_datetime ⟨2020, 1, 1, 12, 0, 0, 500000⟩,
                   py_str_datetime ⟨2020, 1, 1, 12, 30, 0, 500000⟩]⟩ 0 =
      some [⟨2020, 1, 1, 12, 0, 0, 500000⟩, ⟨2020, 1, 1, 12, 30, 0, 500000⟩] ∧
    some [(⟨2020, 1, 1, 12, 0, 0, 500000⟩ : DT), ⟨2020, 1, 1, 12, 30, 0, 500000⟩] ≠
      some ([] : List DT) := by
  refine ⟨rfl, by decide, by decide⟩


/-- Claim C2: `plot_it` uses the first element of whatever array the
root-finder returned as `t_end` — independent of the remaining roots, with
no sorting (a first root larger than a later one is kept) and no filtering
of complex values (a first root with nonzero imaginary part is kept in
preference to a later real one). -/
theorem c2_first_root_selected (r : Cq) (rest : List Cq) :
    endtime_dec_sel (r :: rest) = some r ∧
    endtime_dec_sel [⟨5, 0⟩, ⟨2, 0⟩] = some ⟨5, 0⟩ ∧
    endtime_dec_sel [⟨3, 1⟩, ⟨4, 0⟩] = some ⟨3, 1⟩ :=
  ⟨rfl, rfl, rfl⟩

/-- Claim C3 (counterexample): `record` with the explicit index `0` does not
append `remaining = total_files - 0`: the `if file_number:` truthiness test
routes it to the interactive prompt, and with a prompted reply of `5` and
`total_files = 100` the appended count is `95`, not `100`. -/
theorem c3_counterexample :
    add_to_dataset ⟨[], [], 100⟩ ⟨none, none⟩ (some 0) 5 ⟨2021, 3, 4, 5, 6, 7, 8⟩
      .ok .ok =
      .ok true ⟨[(95 : ℚ)], [⟨2021, 3, 4, 5, 6, 7, 8⟩], 100⟩
        ⟨some [(95 : ℚ)], some [py_str_datetime ⟨2021, 3, 4, 5, 6, 7, 8⟩]⟩ ∧
    (95 : ℚ) ≠ ((100 : ℤ) - 0 : ℤ) := by
  refine ⟨rfl, by decide⟩

/-- Claim C3 (amended): for every non-zero explicit index, `add_to_dataset`
appends `(now, nfiles - index)`, persists both full sequences (the counts
as numbers, the timestamps as their string renderings), and returns
`True`.  (An index of `0` instead falls back to the interactive prompt —
see C10.) -/
theorem c3_amended_record (s : TimeIt) (fs : FS) (idx pv : ℤ) (now : DT)
    (h : idx ≠ 0) :
    add_to_dataset s fs (some idx) pv now .ok .ok =
      .ok true
        ⟨s.upload_data ++ [((s.nfiles - idx : ℤ) : ℚ)], s.time_data ++ [now], s.nfiles⟩
        ⟨some (s.upload_data ++ [((s.nfiles - idx : ℤ) : ℚ)]),
         some ((s.time_data ++ [now]).map py_str_datetime)⟩ := by
  have hc : current_file_of (some idx) pv = idx := by simp [current_file_of, h]
  unfold add_to_dataset
  rw [hc]
  rfl

theorem c3_amended_record_witness :
    add_to_dataset ⟨[], [], 100⟩ ⟨none, none⟩ (some 10) 0 ⟨2020, 1, 1, 0, 0, 0, 1⟩
      .ok .ok =
      .ok true ⟨[((100 - 10 : ℤ) : ℚ)], [⟨2020, 1, 1, 0, 0, 0, 1⟩], 100⟩
        ⟨some [((100 - 10 : ℤ) : ℚ)],
         some [py_str_datetime ⟨2020, 1, 1, 0, 0, 0, 1⟩]⟩ :=
  c3_amended_record ⟨[], [], 100⟩ ⟨none, none⟩ 10 0 ⟨2020, 1, 1, 0, 0, 0, 1⟩
    (by decide)

/-- Claim C8: if either `np.savetxt` raises an `IOError`, the `SystemExit`
terminates the run (`.fatal`), after exactly one attempt of each write up
to the failing one and with no rollback: the in-memory lists keep the
appended entries, and when the second write fails the uploads file keeps
the already-written new content while the timestamps file is untouched.
When both writes succeed the call returns `True` and raises nothing. -/
theorem c8_persistence_failure_fatal (s : TimeIt) (fs : FS) (fn : Option ℤ)
    (pv : ℤ) (now : DT) (o2 : WriteOutcome) :
    add_to_dataset s fs fn pv now .ok .ok =
      .ok true
        ⟨s.upload_data ++ [((s.nfiles - current_file_of fn pv : ℤ) : ℚ)],
         s.time_data ++ [now], s.nfiles⟩
        ⟨some (s.upload_data ++ [((s.nfiles - current_file_of fn pv : ℤ) : ℚ)]),
         some ((s.time_data ++ [now]).map py_str_datetime)⟩ ∧
    add_to_dataset s fs fn pv now .ioError o2 =
      .fatal
        ⟨s.upload_data ++ [((s.nfiles - current_file_of fn pv : ℤ) : ℚ)],
         s.time_data ++ [now], s.nfiles⟩
        fs ∧
    add_to_dataset s fs fn pv now .ok .ioError =
      .fatal
        ⟨s.upload_data ++ [((s.nfiles - current_file_of fn pv : ℤ) : ℚ)],
         s.time_data ++ [now], s.nfiles⟩
        ⟨some (s.upload_data ++ [((s.nfiles - current_file_of fn pv : ℤ) : ℚ)]),
         fs.timestampsFile⟩ :=
  ⟨rfl, rfl, rfl⟩

/-- Claim C10: an explicit `file_number` of `0` is falsy, so the call takes
the `input(...)` branch exactly as a call with no index does, and the
recorded count uses the prompted reply, not the supplied `0`; a non-zero
explicit index is used as given, without prompting. -/
theorem c10_falsy_index_prompts (s : TimeIt) (fs : FS) (pv : ℤ) (now : DT)
    (n : ℤ) :
    prompts_user (some 0) = true ∧
    prompts_user none = true ∧
    add_to_dataset s fs (some 0) pv now .ok .ok =
      add_to_dataset s fs none pv now .ok .ok ∧
    add_to_dataset s fs (some 0) pv now .ok .ok =
      .ok true
        ⟨s.upload_data ++ [((s.nfiles - pv : ℤ) : ℚ)], s.time_data ++ [now], s.nfiles⟩
        ⟨some (s.upload_data ++ [((s.nfiles - pv : ℤ) : ℚ)]),
         some ((s.time_data ++ [now]).map py_str_datetime)⟩ ∧
    (n ≠ 0 →
      prompts_user (some n) = false ∧
      add_to_dataset s fs (some n) pv now .ok .ok =
        .ok true
          ⟨s.upload_data ++ [((s.nfiles - n : ℤ) : ℚ)], s.time_data ++ [now], s.nfiles⟩
          ⟨some (s.upload_data ++ [((s.nfiles - n : ℤ) : ℚ)]),
           some ((s.time_data ++ [now]).map py_str_datetime)⟩) := by
  refine ⟨rfl, rfl, rfl, rfl, fun h => ⟨?_, ?_⟩⟩
  · simp [prompts_user, h]
  · have hc : current_file_of (some n) pv = n := by simp [current_file_of, h]
    unfold add_to_dataset
    rw [hc]
    rfl

theorem c10_falsy_index_prompts_witness :
    prompts_user (some 0) = true ∧
    prompts_user none = true ∧
    add_to_dataset ⟨[], [], 7⟩ ⟨none, none⟩ (some 0) 3 ⟨2022, 2, 2, 2, 2, 2, 2⟩
        .ok .ok =
      add_to_dataset ⟨[], [], 7⟩ ⟨none, none⟩ none 3 ⟨2022, 2, 2, 2, 2, 2, 2⟩
        .ok .ok ∧
    add_to_dataset ⟨[], [], 7⟩ ⟨none, none⟩ (some 0) 3 ⟨2022, 2, 2, 2, 2, 2, 2⟩
        .ok .ok =
      .ok true ⟨[((7 - 3 : ℤ) : ℚ)], [⟨2022, 2, 2, 2, 2, 2, 2⟩], 7⟩
        ⟨some [((7 - 3 : ℤ) : ℚ)],
         some [py_str_datetime ⟨2022, 2, 2, 2, 2, 2, 2⟩]⟩ ∧
    prompts_user (some 2) = false ∧
    add_to_dataset ⟨[], [], 7⟩ ⟨none, none⟩ (some 2) 3 ⟨2022, 2, 2, 2, 2, 2, 2⟩
        .ok .ok =
      .ok true ⟨[((7 - 2 : ℤ) : ℚ)], [⟨2022, 2, 2, 2, 2, 2, 2⟩], 7⟩
        ⟨some [((7 - 2 : ℤ) : ℚ)],
         some [py_str_datetime ⟨2022, 2, 2, 2, 2, 2, 2⟩]⟩ :=
  have h := c10_falsy_index_prompts ⟨[], [], 7⟩ ⟨none, none⟩ 3
    ⟨2022, 2, 2, 2, 2, 2, 2⟩ 2
  ⟨h.1, h.2.1, h.2.2.1, h.2.2.2.1, (h.2.2.2.2 (by decide)).1, (h.2.2.2.2 (by decide)).2⟩

/-- Claim C4 (counterexample): one `record` call with the explicit index
`0`, a prompted reply of `7` and `total_files = 100` yields a remaining
count of `93`, not `total_files - 0 = 100`. -/
theorem c4_counterexample :
    (run_records [(some 0, 7, ⟨2023, 5, 6, 7, 8, 9, 10⟩)]
        (⟨[], [], 100⟩, ⟨none, none⟩)).1.upload_data = [(93 : ℚ)] ∧
    (93 : ℚ) ≠ ((100 : ℤ) - 0 : ℤ) := by
  refine ⟨rfl, by decide⟩

/-- Claim C4 (amended): after `k` succeeding `record` calls starting from an
empty dataset, both parallel sequences have length exactly `k` (for every
sequence of indices, prompting or not), and whenever every explicit index
is non-zero the `i`-th remaining count is `total_files - index_i` and the
`i`-th timestamp is the `i`-th call's wall-clock time. -/
theorem c4_amended_append_invariant (nfiles : ℤ) (fs : FS)
    (steps : List (ℤ × ℤ × DT)) :
    (run_records (steps.map fun p => (some p.1, p.2.1, p.2.2))
        (⟨[], [], nfiles⟩, fs)).1.time_data.length = steps.length ∧
    (run_records (steps.map fun p => (some p.1, p.2.1, p.2.2))
        (⟨[], [], nfiles⟩, fs)).1.upload_data.length = steps.length ∧
    ((∀ p ∈ steps, p.1 ≠ 0) →
      (run_records (steps.map fun p => (some p.1, p.2.1, p.2.2))
          (⟨[], [], nfiles⟩, fs)).1.upload_data =
        steps.map (fun p => ((nfiles - p.1 : ℤ) : ℚ)) ∧
      (run_records (steps.map fun p => (some p.1, p.2.1, p.2.2))
          (⟨[], [], nfiles⟩, fs)).1.time_data =
        steps.map (fun p => p.2.2)) := by
  rw [run_records_ok_spec steps ⟨[], [], nfiles⟩ fs]
  refine ⟨by simp, by simp, fun h => ⟨?_, by simp⟩⟩
  simp only [List.nil_append]
  refine List.map_congr_left (fun p hp => ?_)
  simp [current_file_of, h p hp]

theorem c4_amended_append_invariant_witness :
    (run_records ([(2, 0, ⟨2024, 1, 2, 3, 4, 5, 6⟩), (5, 0, ⟨2024, 1, 2, 3, 9, 5, 6⟩)].map
        fun p => (some p.1, p.2.1, p.2.2))
        (⟨[], [], 100⟩, ⟨none, none⟩)).1.time_data.length = 2 ∧
    (run_records ([(2, 0, ⟨2024, 1, 2, 3, 4, 5, 6⟩), (5, 0, ⟨2024, 1, 2, 3, 9, 5, 6⟩)].map
        fun p => (some p.1, p.2.1, p.2.2))
        (⟨[], [], 100⟩, ⟨none, none⟩)).1.upload_data =
      [((100 - 2 : ℤ) : ℚ), ((100 - 5 : ℤ) : ℚ)] ∧
    (run_records ([(2, 0, ⟨2024, 1, 2, 3, 4, 5, 6⟩), (5, 0, ⟨2024, 1, 2, 3, 9, 5, 6⟩)].map
        fun p => (some p.1, p.2.1, p.2.2))
        (⟨[], [], 100⟩, ⟨none, none⟩)).1.time_data =
      [⟨2024, 1, 2, 3, 4, 5, 6⟩, ⟨2024, 1, 2, 3, 9, 5, 6⟩] :=
  have h := c4_amended_append_invariant 100 ⟨none, none⟩
    [(2, 0, ⟨2024, 1, 2, 3, 4, 5, 6⟩), (5, 0, ⟨2024, 1, 2, 3, 9, 5, 6⟩)]
  ⟨h.1, (h.2.2 (by decide)).1, (h.2.2 (by decide)).2⟩

/-! ## Theorems about the time axis (claim C9) -/

/-- Claim C9: the forward conversion maps the epoch `1970-01-01T00:00:00`
to coordinate `0` and is inverted exactly by the UTC backward conversion
(`fromtimestamp` with `pytz.utc` applies no timezone offset), so both
conversions measure seconds on the same scale anchored at that epoch. -/
theorem c9_time_scale_consistency (t : Instant) (s : ℚ) (h : validInstant t) :
    time_data_to_dec [epoch1970] = [0] ∧
    fromtimestamp_utc (total_seconds_from_epoch t) = t ∧
    total_seconds_from_epoch (fromtimestamp_utc s) = s := by
  refine ⟨by simp [time_data_to_dec, total_seconds_from_epoch, epoch1970], ?_, ?_⟩
  · obtain ⟨h0, h1⟩ := h
    cases t with
    | mk d sod =>
      have hd : ⌊(86400 * (d : ℚ) + sod) / 86400⌋ = d := by
        have he : (86400 * (d : ℚ) + sod) / 86400 = sod / 86400 + d := by ring
        have hz : ⌊sod / 86400⌋ = 0 := by
          rw [Int.floor_eq_zero_iff, Set.mem_Ico]
          exact ⟨div_nonneg h0 (by norm_num), (div_lt_one (by norm_num)).mpr h1⟩
        rw [he, Int.floor_add_int, hz, zero_add]
      simp only [total_seconds_from_epoch, fromtimestamp_utc, hd, Instant.mk.injEq]
      refine ⟨trivial, by ring⟩
  · simp only [total_seconds_from_epoch, fromtimestamp_utc]
    ring

theorem c9_time_scale_consistency_witness :
    time_data_to_dec [epoch1970] = [0] ∧
    fromtimestamp_utc (total_seconds_from_epoch ⟨18000, 3600⟩) = ⟨18000, 3600⟩ ∧
    total_seconds_from_epoch (fromtimestamp_utc (7 / 2)) = 7 / 2 :=
  c9_time_scale_consistency ⟨18000, 3600⟩ (7 / 2) (by norm_num [validInstant])

/-! ## Lemmas about the argmin scan and the linspace -/

theorem argmin_go_val_le (l : List ℚ) (i : ℕ) (b : ℕ × ℚ) :
    (argmin_go l i b).2 ≤ b.2 := by
  induction l generalizing i b with
  | nil => simp [argmin_go]
  | cons x rest ih =>
    simp only [argmin_go]
    by_cases hx : x < b.2
    · rw [if_pos hx]
      exact le_trans (ih (i + 1) (i, x)) (le_of_lt hx)
    · rw [if_neg hx]
      exact ih (i + 1) b

theorem argmin_go_le_mem (l : List ℚ) (i : ℕ) (b : ℕ × ℚ) :
    ∀ x ∈ l, (argmin_go l i b).2 ≤ x := by
  induction l generalizing i b with
  | nil => intro x hx; cases hx
  | cons y rest ih =>
    intro x hx
    simp only [argmin_go]
    rcases List.mem_cons.mp hx with hh | hh
    · subst hh
      by_cases hy : x < b.2
      · rw [if_pos hy]
        exact argmin_go_val_le rest (i + 1) (i, x)
      · rw [if_neg hy]
        exact le_trans (argmin_go_val_le rest (i + 1) b) (not_lt.mp hy)
    · by_cases hy : y < b.2
      · rw [if_pos hy]
        exact ih (i + 1) (i, y) x hh
      · rw [if_neg hy]
        exact ih (i + 1) b x hh

theorem argmin_go_attained (l : List ℚ) (i : ℕ) (b : ℕ × ℚ) :
    argmin_go l i b = b ∨
    ∃ j, j < l.length ∧ (argmin_go l i b).1 = i + j ∧
      (argmin_go l i b).2 = l.getD j 0 := by
  induction l generalizing i b with
  | nil => left; rfl
  | cons y rest ih =>
    simp only [argmin_go]
    by_cases hy : y < b.2
    · rw [if_pos hy]
      rcases ih (i + 1) (i, y) with hh | ⟨j, hj, h1, h2⟩
      · right
        refine ⟨0, by simp, by simp [hh], by simp [hh]⟩
      · right
        refine ⟨j + 1, by simp; omega, ?_, ?_⟩
        · rw [h1]; omega
        · rw [h2]; simp [List.getD_cons_succ]
    · rw [if_neg hy]
      rcases ih (i + 1) b with hh | ⟨j, hj, h1, h2⟩
      · left; exact hh
      · right
        refine ⟨j + 1, by simp; omega, ?_, ?_⟩
        · rw [h1]; omega
        · rw [h2]; simp [List.getD_cons_succ]

theorem np_nanargmin_spec (xs : List ℚ) (h : xs ≠ []) :
    np_nanargmin xs < xs.length ∧
    ∀ j, j < xs.length → xs.getD (np_nanargmin xs) 0 ≤ xs.getD j 0 := by
  match xs, h with
  | x :: rest, _ =>
    have hval : (x :: rest).getD (np_nanargmin (x :: rest)) 0 =
        (argmin_go rest 1 (0, x)).2 := by
      rcases argmin_go_attained rest 1 (0, x) with hh | ⟨k, hk, h1, h2⟩
      · simp [np_nanargmin, hh]
      · have h1x : (argmin_go rest 1 (0, x)).1 = k + 1 := by omega
        simp [np_nanargmin, h1x, h2, List.getD_cons_succ]
    constructor
    · rcases argmin_go_attained rest 1 (0, x) with hh | ⟨k, hk, h1, _⟩
      · simp [np_nanargmin, hh]
      · simp only [np_nanargmin, h1, List.length_cons]
        omega
    · intro j hj
      rw [hval]
      match j with
      | 0 =>
        simpa using argmin_go_val_le rest 1 (0, x)
      | k + 1 =>
        have hk : k < rest.length := by
          simpa using hj
        have hmem : rest.getD k 0 ∈ rest := by
          rw [List.getD_eq_getElem rest 0 hk]
          exact List.getElem_mem hk
        simpa [List.getD_cons_succ] using
          argmin_go_le_mem rest 1 (0, x) (rest.getD k 0) hmem

theorem getD_map_range (f : ℕ → ℚ) (n j : ℕ) (h : j < n) :
    ((List.range n).map f).getD j 0 = f j := by
  rw [List.getD_eq_getElem ((List.range n).map f) 0 (by simpa using h)]
  simp [h]

theorem getD_map_abs (l : List ℚ) (j : ℕ) (h : j < l.length) :
    (np_abs l).getD j 0 = |l.getD j 0| := by
  rw [List.getD_eq_getElem (np_abs l) 0 (by simpa [np_abs] using h),
    List.getD_eq_getElem l 0 h]
  simp [np_abs]

theorem getD_map_eval (z : List ℚ) (l : List ℚ) (j : ℕ) (h : j < l.length) :
    (l.map (poly1d_eval z)).getD j 0 = poly1d_eval z (l.getD j 0) := by
  rw [List.getD_eq_getElem (l.map (poly1d_eval z)) 0 (by simpa using h),
    List.getD_eq_getElem l 0 h]
  simp

/-- Claim C1: for a dataset with at least `degree + 1` samples (so the fit
is determined and the dataset is non-empty), the completion label is
computed by evaluating the fitted polynomial on exactly 100 evenly spaced
points from the first sample's time coordinate to `t_end` (first point the
first sample's coordinate, last point `t_end`, constant spacing
`(t_end - t0) / 99`), picking an index at which the absolute evaluated
value is minimal over all 100 points (no value is NaN in this rational
model, so none is ignored), and rendering that point's timestamp as its
hour and minute. -/
theorem c1_completion_is_min_abs_on_linspace (poly : ℕ) (td : List ℚ)
    (z : List ℚ) (e : ℚ) (hdeg : z.length = poly + 1)
    (hn : poly + 1 ≤ td.length) :
    (plot_it_xp td e).length = 100 ∧
    (plot_it_xp td e).getD 0 0 = td.headD 0 ∧
    (plot_it_xp td e).getD 99 0 = e ∧
    (∀ j, j + 1 < 100 →
      (plot_it_xp td e).getD (j + 1) 0 - (plot_it_xp td e).getD j 0 =
        (e - td.headD 0) / 99) ∧
    plot_it_theargmin z td e < 100 ∧
    (∀ j, j < 100 →
      |poly1d_eval z ((plot_it_xp td e).getD (plot_it_theargmin z td e) 0)| ≤
        |poly1d_eval z ((plot_it_xp td e).getD j 0)|) ∧
    plot_it_completion z td e =
      strftime_HM (fromtimestamp_utc
        ((plot_it_xp td e).getD (plot_it_theargmin z td e) 0)) := by
  have hxplen : (plot_it_xp td e).length = 100 := by
    simp [plot_it_xp, np_linspace]
  have hnewlen : (plot_it_newfiles z td e).length = 100 := by
    simp [plot_it_newfiles, hxplen]
  have habslen : (np_abs (plot_it_newfiles z td e)).length = 100 := by
    simp [np_abs, hnewlen]
  have hne : np_abs (plot_it_newfiles z td e) ≠ [] :=
    List.ne_nil_of_length_pos (by rw [habslen]; norm_num)
  obtain ⟨hlt, hmin⟩ := np_nanargmin_spec (np_abs (plot_it_newfiles z td e)) hne
  have hdef : np_nanargmin (np_abs (plot_it_newfiles z td e)) =
      plot_it_theargmin z td e := rfl
  rw [hdef] at hlt hmin
  have hbound : plot_it_theargmin z td e < 100 := by
    rw [← habslen]
    exact hlt
  have hxp : ∀ j, j < 100 → (plot_it_xp td e).getD j 0 =
      td.headD 0 + (j : ℚ) * (e - td.headD 0) / 99 := by
    intro j hj
    unfold plot_it_xp np_linspace
    rw [getD_map_range _ 100 j hj]
    norm_num
  refine ⟨hxplen, ?_, ?_, ?_, hbound, ?_, rfl⟩
  · rw [hxp 0 (by norm_num)]
    simp
  · rw [hxp 99 (by norm_num)]
    push_cast
    rw [mul_div_cancel_left₀ (e - td.headD 0) (by norm_num : (99 : ℚ) ≠ 0)]
    ring
  · intro j hj
    rw [hxp (j + 1) hj, hxp j (by omega)]
    push_cast
    ring
  · intro j hj
    have h1 := hmin j (by rw [habslen]; exact hj)
    have h2 := getD_map_abs (plot_it_newfiles z td e) j (by rw [hnewlen]; exact hj)
    have h3 := getD_map_abs (plot_it_newfiles z td e) (plot_it_theargmin z td e)
      (by rw [hnewlen]; exact hbound)
    rw [h2, h3] at h1
    have h4 := getD_map_eval z (plot_it_xp td e) j (by rw [hxplen]; exact hj)
    have h5 := getD_map_eval z (plot_it_xp td e) (plot_it_theargmin z td e)
      (by rw [hxplen]; exact hbound)
    simp only [plot_it_newfiles] at h1
    rw [h4, h5] at h1
    exact h1

theorem c1_completion_is_min_abs_on_linspace_witness :
    (plot_it_xp [0, 10] 20).length = 100 ∧
    (plot_it_xp [0, 10] 20).getD 0 0 = ([0, 10] : List ℚ).headD 0 ∧
    (plot_it_xp [0, 10] 20).getD 99 0 = 20 ∧
    (∀ j, j + 1 < 100 →
      (plot_it_xp [0, 10] 20).getD (j + 1) 0 - (plot_it_xp [0, 10] 20).getD j 0 =
        (20 - ([0, 10] : List ℚ).headD 0) / 99) ∧
    plot_it_theargmin [1, -20] [0, 10] 20 < 100 ∧
    (∀ j, j < 100 →
      |poly1d_eval [1, -20]
          ((plot_it_xp [0, 10] 20).getD (plot_it_theargmin [1, -20] [0, 10] 20) 0)| ≤
        |poly1d_eval [1, -20] ((plot_it_xp [0, 10] 20).getD j 0)|) ∧
    plot_it_completion [1, -20] [0, 10] 20 =
      strftime_HM (fromtimestamp_utc
        ((plot_it_xp [0, 10] 20).getD (plot_it_theargmin [1, -20] [0, 10] 20) 0)) :=
  c1_completion_is_min_abs_on_linspace 1 [0, 10] [1, -20] 20 (by norm_num)
    (by norm_num)

/-! ## Lemmas about decimal digit strings (for claim C7) -/

theorem length_digitsLE (w n : ℕ) : (digitsLE w n).length = w := by
  induction w generalizing n with
  | zero => rfl
  | succ k ih => simp [digitsLE, ih]

theorem digitsLE_lt_ten (w n : ℕ) : ∀ d ∈ digitsLE w n, d < 10 := by
  induction w generalizing n with
  | zero => intro d hd; cases hd
  | succ k ih =>
    intro d hd
    rcases List.mem_cons.mp hd with hh | hh
    · exact hh ▸ Nat.mod_lt n (by norm_num)
    · exact ih (n / 10) d hh

theorem valBE_append (xs : List ℕ) (d : ℕ) :
    valBE (xs ++ [d]) = 10 * valBE xs + d := by
  unfold valBE
  rw [List.foldl_append]
  rfl

theorem valBE_rev_digitsLE (w n : ℕ) :
    valBE ((digitsLE w n).reverse) = n % 10 ^ w := by
  induction w generalizing n with
  | zero => simp [digitsLE, valBE, Nat.mod_one]
  | succ k ih =>
    simp only [digitsLE, List.reverse_cons]
    rw [valBE_append, ih]
    have hM : (10 : ℕ) ^ (k + 1) = 10 * 10 ^ k := by
      rw [pow_succ, Nat.mul_comm]
    have h1 : n % 10 ^ (k + 1) % 10 = n % 10 :=
      Nat.mod_mod_of_dvd n (hM ▸ dvd_mul_right 10 (10 ^ k))
    have h2 : n % 10 ^ (k + 1) / 10 = n / 10 % 10 ^ k := by
      rw [hM]
      exact Nat.mod_mul_right_div_self n 10 (10 ^ k)
    have h3 := Nat.div_add_mod (n % 10 ^ (k + 1)) 10
    rw [h1, h2] at h3
    omega

theorem charVal_digitChar {d : ℕ} (h : d < 10) : charVal (digitChar d) = d := by
  interval_cases d <;> decide

theorem isDigitChar_digitChar {d : ℕ} (h : d < 10) :
    isDigitChar (digitChar d) = true := by
  interval_cases d <;> decide

theorem length_padChars (w n : ℕ) : (padChars w n).length = w := by
  simp [padChars, length_digitsLE]

theorem all_padChars (w n : ℕ) : (padChars w n).all isDigitChar = true := by
  rw [List.all_eq_true]
  intro c hc
  simp only [padChars, List.mem_map, List.mem_reverse] at hc
  obtain ⟨d, hd, rfl⟩ := hc
  exact isDigitChar_digitChar (digitsLE_lt_ten _ _ d hd)

theorem map_charVal_padChars (w n : ℕ) :
    (padChars w n).map charVal = (digitsLE w n).reverse := by
  simp only [padChars, List.map_map]
  refine Eq.trans (List.map_congr_left ?_) (List.map_id _)
  intro d hd
  exact charVal_digitChar (digitsLE_lt_ten w n d (List.mem_reverse.mp hd))

theorem parseNat_padChars (w n : ℕ) (h : n < 10 ^ w) (rest : List Char) :
    parseNat w (padChars w n ++ rest) = some (n, rest) := by
  unfold parseNat
  have htake : (padChars w n ++ rest).take w = padChars w n := by
    have hx := List.take_left (padChars w n) rest
    rwa [length_padChars] at hx
  have hdrop : (padChars w n ++ rest).drop w = rest := by
    have hx := List.drop_left (padChars w n) rest
    rwa [length_padChars] at hx
  simp only [htake, hdrop, map_charVal_padChars, valBE_rev_digitsLE,
    Nat.mod_eq_of_lt h, length_padChars, all_padChars]
  simp

theorem expect_cons (c : Char) (rest : List Char) :
    expect c (c :: rest) = some rest := by
  simp [expect]

theorem takeWhile_padChars (w n : ℕ) :
    (padChars w n).takeWhile isDigitChar = padChars w n :=
  List.takeWhile_eq_self_iff.mpr (List.all_eq_true.mp (all_padChars w n))

theorem dropWhile_padChars (w n : ℕ) :
    (padChars w n).dropWhile isDigitChar = [] :=
  List.dropWhile_eq_nil_iff.mpr (List.all_eq_true.mp (all_padChars w n))

set_option maxHeartbeats 2000000 in
/-- The serialize/parse round trip on one timestamp, provided it is a
constructible datetime with non-zero microseconds (so that `str` emits the
fractional part the exact-format parser demands). -/
theorem strptime_py_str (t : DT) (hv : validDT t) (hu : t.usec ≠ 0) :
    strptime_exact (py_str_datetime t) = some t := by
  obtain ⟨y, mo, d, h, mi, s, u⟩ := t
  obtain ⟨h1, h2, h3, h4, h5, h6, h7, h8, h9, h10⟩ := hv
  dsimp only at h1 h2 h3 h4 h5 h6 h7 h8 h9 h10 hu
  have hy : y < 10 ^ 4 := by norm_num; omega
  have hmo : mo < 10 ^ 2 := by norm_num; omega
  have hd : d < 10 ^ 2 := by
    have hdm : daysInMonth y mo ≤ 31 := by
      unfold daysInMonth
      split <;> split <;> norm_num
    norm_num; omega
  have hh : h < 10 ^ 2 := by norm_num; omega
  have hmi : mi < 10 ^ 2 := by norm_num; omega
  have hs : s < 10 ^ 2 := by norm_num; omega
  have hu6 : u < 10 ^ 6 := by norm_num; omega
  simp only [py_str_datetime, if_neg hu, strptime_exact,
    parseNat_padChars 4 y hy, parseNat_padChars 2 mo hmo,
    parseNat_padChars 2 d hd, parseNat_padChars 2 h hh,
    parseNat_padChars 2 mi hmi, parseNat_padChars 2 s hs,
    expect_cons, Option.bind_eq_bind', Option.some_bind',
    takeWhile_padChars, dropWhile_padChars,
    length_padChars, map_charVal_padChars, valBE_rev_digitsLE,
    Nat.mod_eq_of_lt hu6]
  norm_num
  intro hcon
  exact absurd ⟨h1, h2, h3, h4, h5, h6, h7, h8, h9, h10⟩ hcon

/-- Serialize-then-parse over a whole timestamp file, line by line. -/
theorem parse_lines_map_py_str (ts : List DT)
    (h : ∀ t ∈ ts, validDT t ∧ t.usec ≠ 0) :
    parse_lines (ts.map py_str_datetime) = some ts := by
  induction ts with
  | nil => rfl
  | cons t rest ih =>
    have ht := h t (List.mem_cons_self t rest)
    simp only [List.map_cons, parse_lines, strptime_py_str t ht.1 ht.2,
      ih (fun x hx => h x (List.mem_cons_of_mem t hx))]

/-- Claim C6 (amended): each reader checks only its own file, so an absent
resource empties only its own sequence; the other resource, when its file
is present and loadable (not exactly one row, and — for timestamps —
parseable), is still loaded in full.  Absence of one resource does not
empty the other. -/
theorem c6_amended_independent_loads (xs : List ℚ) (ts : List DT)
    (hx : xs.length ≠ 1)
    (h1 : ∀ t ∈ ts, validDT t ∧ t.usec ≠ 0) (h2 : ts.length ≠ 1) :
    read_upload_data ⟨some xs, none⟩ 0 = some xs ∧
    read_time_data ⟨some xs, none⟩ 0 = some [] ∧
    read_upload_data ⟨none, some (ts.map py_str_datetime)⟩ 0 = some [] ∧
    read_time_data ⟨none, some (ts.map py_str_datetime)⟩ 0 = some ts := by
  refine ⟨?_, rfl, rfl, ?_⟩
  · simp [read_upload_data, np_loadtxt_list, hx]
  · have hlen : (ts.map py_str_datetime).length ≠ 1 := by simpa using h2
    simp [read_time_data, np_loadtxt_list, hlen, h2,
      parse_lines_map_py_str ts h1]

theorem c6_amended_independent_loads_witness :
    read_upload_data ⟨some [90, 80], none⟩ 0 = some [90, 80] ∧
    read_time_data ⟨some [90, 80], none⟩ 0 = some [] ∧
    read_upload_data ⟨none, some ([(⟨2022, 3, 4, 5, 6, 7, 800000⟩ : DT),
      ⟨2022, 3, 4, 5, 16, 7, 900000⟩].map py_str_datetime)⟩ 0 = some [] ∧
    read_time_data ⟨none, some ([(⟨2022, 3, 4, 5, 6, 7, 800000⟩ : DT),
      ⟨2022, 3, 4, 5, 16, 7, 900000⟩].map py_str_datetime)⟩ 0 =
      some [⟨2022, 3, 4, 5, 6, 7, 800000⟩, ⟨2022, 3, 4, 5, 16, 7, 900000⟩] :=
  c6_amended_independent_loads [90, 80]
    [⟨2022, 3, 4, 5, 6, 7, 800000⟩, ⟨2022, 3, 4, 5, 16, 7, 900000⟩]
    (by decide) (by decide) (by decide)

/-- Claim C7 (counterexample): the round trip is not exact for every
dataset.  With two samples of which one has `microsecond == 0`,
`str(datetime)` omits the fractional part, the exact-format parser then
fails, and the load returns an error instead of the samples; moreover a
dataset of exactly one sample fails to load at all (`np.loadtxt` squeezes
one row to a 0-d array and iterating it raises `TypeError`). -/
theorem c7_counterexample :
    write_time_data [⟨2020, 1, 1, 12, 30, 0, 500000⟩, ⟨2020, 1, 1, 12, 0, 0, 0⟩]
        ⟨none, none⟩ .ok =
      .ok ⟨none, some ([(⟨2020, 1, 1, 12, 30, 0, 500000⟩ : DT),
        ⟨2020, 1, 1, 12, 0, 0, 0⟩].map py_str_datetime)⟩ ∧
    read_time_data ⟨none, some ([(⟨2020, 1, 1, 12, 30, 0, 500000⟩ : DT),
        ⟨2020, 1, 1, 12, 0, 0, 0⟩].map py_str_datetime)⟩ 0 = none ∧
    (none : Option (List DT)) ≠
      some [⟨2020, 1, 1, 12, 30, 0, 500000⟩, ⟨2020, 1, 1, 12, 0, 0, 0⟩] ∧
    write_time_data [⟨2021, 7, 8, 9, 10, 11, 123456⟩] ⟨none, none⟩ .ok =
      .ok ⟨none, some ([(⟨2021, 7, 8, 9, 10, 11, 123456⟩ : DT)].map py_str_datetime)⟩ ∧
    read_time_data ⟨none,
      some ([(⟨2021, 7, 8, 9, 10, 11, 123456⟩ : DT)].map py_str_datetime)⟩ 0 = none := by
  refine ⟨rfl, by decide, by decide, rfl, by decide⟩

/-- Claim C7 (amended): writing `N` samples and loading them back yields
exactly the same samples — counts at full precision and timestamps to the
microsecond — provided `N ≠ 1` (one-row files fail to load, see the
counterexample) and every timestamp is a constructible datetime with
non-zero microseconds (a zero microsecond field is serialized without the
fractional part and fails to parse). -/
theorem c7_amended_roundtrip (fs : FS) (ts : List DT) (cs : List ℚ)
    (h1 : ∀ t ∈ ts, validDT t ∧ t.usec ≠ 0) (h2 : ts.length ≠ 1)
    (h3 : cs.length ≠ 1) :
    write_upload_data cs fs .ok = .ok { fs with uploadsFile := some cs } ∧
    write_time_data ts fs .ok =
      .ok { fs with timestampsFile := some (ts.map py_str_datetime) } ∧
    read_upload_data ⟨some cs, some (ts.map py_str_datetime)⟩ 0 = some cs ∧
    read_time_data ⟨some cs, some (ts.map py_str_datetime)⟩ 0 = some ts := by
  refine ⟨rfl, rfl, ?_, ?_⟩
  · simp [read_upload_data, np_loadtxt_list, h3]
  · have hlen : (ts.map py_str_datetime).length ≠ 1 := by simpa using h2
    simp [read_time_data, np_loadtxt_list, hlen, h2,
      parse_lines_map_py_str ts h1]

theorem c7_amended_roundtrip_witness :
    write_upload_data [90, 80] ⟨none, none⟩ .ok = .ok ⟨some [90, 80], none⟩ ∧
    write_time_data [⟨2020, 1, 1, 12, 0, 0, 500000⟩, ⟨2020, 1, 1, 12, 30, 0, 250000⟩]
        ⟨none, none⟩ .ok =
      .ok ⟨none, some ([(⟨2020, 1, 1, 12, 0, 0, 500000⟩ : DT),
        ⟨2020, 1, 1, 12, 30, 0, 250000⟩].map py_str_datetime)⟩ ∧
    read_upload_data ⟨some [90, 80], some ([(⟨2020, 1, 1, 12, 0, 0, 500000⟩ : DT),
        ⟨2020, 1, 1, 12, 30, 0, 250000⟩].map py_str_datetime)⟩ 0 = some [90, 80] ∧
    read_time_data ⟨some [90, 80], some ([(⟨2020, 1, 1, 12, 0, 0, 500000⟩ : DT),
        ⟨2020, 1, 1, 12, 30, 0, 250000⟩].map py_str_datetime)⟩ 0 =
      some [⟨2020, 1, 1, 12, 0, 0, 500000⟩, ⟨2020, 1, 1, 12, 30, 0, 250000⟩] :=
  c7_amended_roundtrip ⟨none, none⟩
    [⟨2020, 1, 1, 12, 0, 0, 500000⟩, ⟨2020, 1, 1, 12, 30, 0, 250000⟩]
    [90, 80] (by decide) (by decide) (by decide)

end UploadTimer
